import Mathlib

/-!
Verification of the syscall trap-entry layer of a teaching OS kernel
(`src/userprog/syscall.c`): user-memory validation (`get_user`,
`check_addr`, `check_buffer`, `memread_user`), the syscall dispatcher
(`syscall_handler`), the handlers (`sys_exit`, `sys_write`, exec/wait
glue) and the exit/wait coordination on the process control block.

User memory is modelled as a partial map from addresses to bytes;
collaborators (process_execute, process_wait) are parameters; the
observable effects of one trap (termination mode, console output,
diagnostics, PCB mutation order) are returned as data.
-/

/-- The user/kernel address-space boundary `PHYS_BASE` (0xC0000000 on the
platform, from `threads/vaddr.h`). -/
def PHYS_BASE : Nat := 0xC0000000

/-- A byte value. -/
abbrev Byte := Fin 256

/-- User virtual memory: a partial map from addresses to bytes.
`none` means the address is unmapped (an access page-faults). -/
abbrev Mem := Nat → Option Byte

/-- Embeds `get_user` (syscall.c:205-218): returns `-1` if `uaddr` is not
strictly below `PHYS_BASE`; otherwise attempts the one-byte read.
The fault-interception branch (`asm` read rescued by the page-fault
handler, which lives in `userprog/exception.c`, outside this tree) is
modelled from the spec: a read of an unmapped address returns `-1`
instead of faulting, a mapped read returns the zero-extended byte. -/
def get_user (mem : Mem) (uaddr : Nat) : Int :=
  if ¬ uaddr < PHYS_BASE then -1
  else
    match mem uaddr with
    | none => -1
    | some b => (b : Nat)

/-- Embeds `check_addr` (syscall.c:238-246): returns `false` iff
`uaddr > PHYS_BASE` (note: the comparison in the source is strict `>`,
so the boundary address itself passes). -/
def check_addr (uaddr : Nat) : Bool :=
  if uaddr > PHYS_BASE then false else true

/-- Embeds `check_buffer` (syscall.c:248-262): every byte of
`[buffer, buffer+size)` must pass `check_addr` and be readable by
`get_user`. -/
def check_buffer (mem : Mem) (buffer : Nat) (size : Nat) : Bool :=
  (List.range size).all fun i =>
    check_addr (buffer + i) && decide (0 ≤ get_user mem (buffer + i))

/-- The store `*(char*)(dst+i) = value & 0xff` of `memread_user`. -/
def byteOf (v : Int) : Byte := ⟨v.toNat % 256, Nat.mod_lt _ (by norm_num)⟩

/-- The loop of `memread_user` (syscall.c:225-236), started at offset `i`
with `n` bytes remaining. `dst` is kernel memory indexed by offset into
the destination object. Returns the success flag and the final state of
`dst`: the loop stops at the first failing byte, keeping the bytes
already stored. -/
def memread_go (mem : Mem) (src : Nat) : Nat → Nat → (Nat → Byte) → Bool × (Nat → Byte)
  | _, 0, dst => (true, dst)
  | i, n + 1, dst =>
    let value := get_user mem (src + i)
    if value < 0 then (false, dst)
    else memread_go mem src (i + 1) n (Function.update dst i (byteOf value))

/-- Embeds `memread_user` (syscall.c:225-236): reads `bytes` consecutive
user bytes starting at `src` into `dst`; result is `bytes` on success and
`-1` on the first invalid access, together with the final `dst`. -/
def memread_user (mem : Mem) (src : Nat) (dst : Nat → Byte) (bytes : Nat) :
    Int × (Nat → Byte) :=
  let r := memread_go mem src 0 bytes dst
  (if r.1 then (bytes : Int) else -1, r.2)

/-- A 4-byte little-endian user word read through `get_user`, as performed
by the `memread_user(addr, &x, 4)` calls of the dispatcher: `none` iff
some byte of `[addr, addr+4)` is invalid. -/
def read_user_word (mem : Mem) (addr : Nat) : Option Nat :=
  if get_user mem addr < 0 ∨ get_user mem (addr + 1) < 0 ∨
     get_user mem (addr + 2) < 0 ∨ get_user mem (addr + 3) < 0 then none
  else some ((get_user mem addr).toNat + 256 * (get_user mem (addr + 1)).toNat +
             65536 * (get_user mem (addr + 2)).toNat +
             16777216 * (get_user mem (addr + 3)).toNat)

/-- A raw (unchecked) 4-byte little-endian dereference, as in
`*(int *)(f->esp)` (syscall.c:62); unmapped bytes read as zero (the
dispatcher only performs it after `check_buffer` validated the range). -/
def rawWord (mem : Mem) (addr : Nat) : Nat :=
  ((mem addr).getD 0).val + 256 * ((mem (addr + 1)).getD 0).val +
    65536 * ((mem (addr + 2)).getD 0).val +
    16777216 * ((mem (addr + 3)).getD 0).val

/-- Reinterpret a 32-bit word as a signed `int`. -/
def toSigned (w : Nat) : Int :=
  if w < 2 ^ 31 then (w : Int) else (w : Int) - 2 ^ 32

/-- Cast an `int` back to `uint32_t` (the write into `f->eax`). -/
def toUnsigned (v : Int) : Nat := (v % 2 ^ 32).toNat

/-- The process control block (`struct process_control_block` of
`userprog/process.h`, as used by this file): exit flag, exit code and
the one-shot semaphore `sema_wait` (modelled by its counter). -/
structure PCB where
  exited : Bool
  exitcode : Int
  semaValue : Nat
deriving DecidableEq

/-- The individual PCB mutations performed by `sys_exit`. -/
inductive ExitEvent
  | setExited (b : Bool)
  | setExitcode (c : Int)
  | semaUp
deriving DecidableEq

/-- Applying one PCB mutation. -/
def applyExitEvent : PCB → ExitEvent → PCB
  | p, .setExited b => { p with exited := b }
  | p, .setExitcode c => { p with exitcode := c }
  | p, .semaUp => { p with semaValue := p.semaValue + 1 }

/-- The ordered sequence of PCB mutations performed by `sys_exit`
(syscall.c:145-159): `pcb->exited = true; pcb->exitcode = status;
sema_up(&pcb->sema_wait);`. -/
def sys_exit_trace (status : Int) : List ExitEvent :=
  [ExitEvent.setExited true, ExitEvent.setExitcode status, ExitEvent.semaUp]

/-- The effect of `sys_exit(status)` (syscall.c:145-159) on the calling
process's PCB: its mutation trace applied in order (the call then ends
in `thread_exit()`, which does not return). -/
def sys_exit (status : Int) (pcb : PCB) : PCB :=
  (sys_exit_trace status).foldl applyExitEvent pcb

/-- The diagnostics this layer prints. -/
inductive Diag
  | exitMsg (code : Int)             -- printf of name and exit code in sys_exit
  | unimplementedSyscall (n : Int)   -- the unimplemented-syscall printf, syscall.c:134
  | writeUnimplemented               -- the sys_write unimplemented printf, syscall.c:198
deriving DecidableEq

/-- How one trap ends. -/
inductive Outcome
  | powerOff            -- shutdown_power_off(), does not return
  | threadExit          -- bare thread_exit(): no PCB write, no signal
  | exited (code : Int) -- sys_exit(code): PCB written, sema raised, then thread_exit
  | resume (eax : Nat)  -- returns to the caller with f->eax set
deriving DecidableEq

/-- The observable result of one trap: how it ended, the bytes forwarded
to the console (`putbuf`), and the diagnostics printed, in order. -/
structure SysResult where
  outcome : Outcome
  console : List Byte
  diags : List Diag
deriving DecidableEq

/-- The result of a path through `sys_exit(code)`: the exit printf, then
termination through the coordinator. -/
def sys_exit_result (code : Int) : SysResult :=
  { outcome := .exited code, console := [], diags := [.exitMsg code] }

/-- What `sys_write` does before control returns to the dispatcher. -/
inductive WriteResult
  | terminated               -- thread_exit() inside sys_write (invalid buffer)
  | unimpl                   -- printed the unimplemented diagnostic, returned false
  | ok (ret : Nat) (bytes : List Byte) -- putbuf done, *ret = size, returned true
deriving DecidableEq

/-- The bytes `putbuf(buffer, size)` forwards: a raw, unchecked read of
user memory (unmapped bytes modelled as zero; `putbuf` itself performs no
validation). -/
def putbuf_bytes (mem : Mem) (buffer : Nat) (size : Nat) : List Byte :=
  (List.range size).map fun i => (mem (buffer + i)).getD 0

/-- Embeds `sys_write` (syscall.c:182-201): probes only the FIRST byte of
the buffer with `get_user`; on fault, `thread_exit()`; else for `fd == 1`
forwards `size` bytes via `putbuf` and succeeds with `*ret = size`; any
other descriptor prints the unimplemented diagnostic and returns false. -/
def sys_write (mem : Mem) (fd : Int) (buffer : Nat) (size : Nat) : WriteResult :=
  if get_user mem buffer = -1 then .terminated
  else if fd = 1 then .ok size (putbuf_bytes mem buffer size)
  else .unimpl

/-- Console bytes carried by a `WriteResult`. -/
def writeConsole : WriteResult → List Byte
  | .ok _ bs => bs
  | _ => []

/-- The syscall numbers of `syscall-nr.h`. -/
def SYS_HALT : Int := 0
def SYS_EXIT : Int := 1
def SYS_EXEC : Int := 2
def SYS_WAIT : Int := 3
def SYS_CREATE : Int := 4
def SYS_REMOVE : Int := 5
def SYS_OPEN : Int := 6
def SYS_FILESIZE : Int := 7
def SYS_READ : Int := 8
def SYS_WRITE : Int := 9
def SYS_SEEK : Int := 10
def SYS_TELL : Int := 11
def SYS_CLOSE : Int := 12

/-- The part of the trap frame (`struct intr_frame`) this layer touches:
the stack pointer (read) and `eax` (written through `SysResult.resume`). -/
structure Frame where
  esp : Nat
  eax : Nat
deriving DecidableEq

/-- Embeds `syscall_handler` (syscall.c:49-141). `pexec` and `pwait` are
the `process_execute` / `process_wait` collaborators. Path by path:
bad `f->esp` per `check_addr` ends in a bare `thread_exit()`; a
non-readable opcode word ends in `sys_badmemory_access` = `sys_exit(-1)`;
then the switch on the signed opcode word: HALT powers off (no return,
so the missing `break` is unreachable); EXIT/EXEC/WAIT/WRITE read their
argument words with `memread_user`, failing into `fail_invalid_access` =
`sys_exit(-1)`; a false return of `sys_write` ends in a bare
`thread_exit()`; every other opcode prints the unimplemented diagnostic
and calls `sys_exit(-1)`. -/
def syscall_handler (pexec : Nat → Int) (pwait : Int → Int) (mem : Mem)
    (f : Frame) : SysResult :=
  if ¬ check_addr f.esp then { outcome := .threadExit, console := [], diags := [] }
  else if ¬ check_buffer mem f.esp 4 then sys_exit_result (-1)
  else
    let n : Int := toSigned (rawWord mem f.esp)
    if n = SYS_HALT then { outcome := .powerOff, console := [], diags := [] }
    else if n = SYS_EXIT then
      match read_user_word mem (f.esp + 4) with
      | none => sys_exit_result (-1)
      | some w => sys_exit_result (toSigned w)
    else if n = SYS_EXEC then
      match read_user_word mem (f.esp + 4) with
      | none => sys_exit_result (-1)
      | some cmdline =>
        if get_user mem cmdline = -1 then sys_exit_result (-1)
        else { outcome := .resume (toUnsigned (pexec cmdline)), console := [],
               diags := [] }
    else if n = SYS_WAIT then
      match read_user_word mem (f.esp + 4) with
      | none => sys_exit_result (-1)
      | some w => { outcome := .resume (toUnsigned (pwait (toSigned w))),
                    console := [], diags := [] }
    else if n = SYS_WRITE then
      match read_user_word mem (f.esp + 4) with
      | none => sys_exit_result (-1)
      | some fdw =>
        match read_user_word mem (f.esp + 8) with
        | none => sys_exit_result (-1)
        | some bufw =>
          match read_user_word mem (f.esp + 12) with
          | none => sys_exit_result (-1)
          | some sizew =>
            match sys_write mem (toSigned fdw) bufw sizew with
            | .terminated => { outcome := .threadExit, console := [], diags := [] }
            | .unimpl => { outcome := .threadExit, console := [],
                           diags := [.writeUnimplemented] }
            | .ok ret bs => { outcome := .resume ret, console := bs, diags := [] }
    else
      { outcome := .exited (-1), console := [],
        diags := [.unimplementedSyscall n, .exitMsg (-1)] }

/-! Concrete instances used to exercise the definitions. -/

/-- A byte from a numeric literal. -/
def natByte (n : Nat) : Byte := ⟨n % 256, Nat.mod_lt _ (by norm_num)⟩

/-- A finite memory from an association list; everything else unmapped. -/
def memOf (l : List (Nat × Nat)) : Mem := fun a => (l.lookup a).map natByte

/-- A fully unmapped memory. -/
def memNone : Mem := fun _ => none

/-- A `process_execute` collaborator returning a fixed child id. -/
def pexec0 : Nat → Int := fun _ => 3

/-- A `process_wait` collaborator returning a fixed exit code. -/
def pwait0 : Int → Int := fun _ => 0

/-- A fresh PCB. -/
def pcb0 : PCB := { exited := false, exitcode := 0, semaValue := 0 }

/-- A user buffer straddling the boundary: its first byte is the last user
address, its second is the first kernel address (both mapped). -/
def memC2 : Mem := memOf [(PHYS_BASE - 1, 104), (PHYS_BASE, 88)]

/-- A stack at 1000 invoking opcode 7 (`SYS_FILESIZE`, unimplemented). -/
def memC4 : Mem := memOf [(1000, 7), (1001, 0), (1002, 0), (1003, 0)]

/-- A stack at 1000 invoking `write(99, 2000, 1)`; the byte at 2000 is
mapped. -/
def memC5 : Mem := memOf
  [(1000, 9), (1001, 0), (1002, 0), (1003, 0),
   (1004, 99), (1005, 0), (1006, 0), (1007, 0),
   (1008, 208), (1009, 7), (1010, 0), (1011, 0),
   (1012, 1), (1013, 0), (1014, 0), (1015, 0),
   (2000, 104)]

/-- A memory mapping a single user byte at address 5. -/
def memC7 : Mem := memOf [(5, 65)]

/-- A stack at 1000 invoking opcode 0 (`SYS_HALT`). -/
def memC8 : Mem := memOf [(1000, 0), (1001, 0), (1002, 0), (1003, 0)]

/-- A stack at 1000 invoking `write(1, 2000, 2)` with the buffer bytes
104 'h' and 105 'i' mapped. -/
def memW9 : Mem := memOf
  [(1000, 9), (1001, 0), (1002, 0), (1003, 0),
   (1004, 1), (1005, 0), (1006, 0), (1007, 0),
   (1008, 208), (1009, 7), (1010, 0), (1011, 0),
   (1012, 2), (1013, 0), (1014, 0), (1015, 0),
   (2000, 104), (2001, 105)]

/-- The buffer content of `memW9` as a function of the offset. -/
def bsW9 : Nat → Byte := fun i => if i = 0 then 104 else 105

/-- A memory with a mapped byte at 2000 and nothing at 2001. -/
def memC10 : Mem := memOf [(2000, 10)]

/-- A kernel destination buffer holding 7 everywhere. -/
def dst0 : Nat → Byte := fun _ => 7

/-! Claim theorems. -/

/-- C3: the claim says `check_addr` is true iff the address is strictly
below `PHYS_BASE`, in particular false at the boundary itself. The code
compares with strict `>`, so the boundary address `PHYS_BASE` is
accepted: `check_addr PHYS_BASE = true`, while one above is rejected and
one below accepted — and `get_user` in the same file does use the strict
comparison, so the boundary address is accepted by `check_addr` yet
rejected by `get_user`. -/
theorem C3_check_addr_accepts_boundary :
    check_addr PHYS_BASE = true ∧ check_addr (PHYS_BASE + 1) = false ∧
    check_addr (PHYS_BASE - 1) = true ∧
    get_user memNone PHYS_BASE = -1 := by decide

/-- C1 counterexample: a frame whose stack pointer fails validation
(`esp = PHYS_BASE + 4`) is terminated by a bare `thread_exit` — outcome
`threadExit`, no exit diagnostic, no PCB write — not through the
Coordinator's exit path with code -1 as the claim requires. -/
theorem C1_counterexample :
    syscall_handler pexec0 pwait0 memNone ⟨PHYS_BASE + 4, 0⟩ =
      { outcome := .threadExit, console := [], diags := [] } ∧
    Outcome.threadExit ≠ Outcome.exited (-1) := by decide

/-- C1 (amended): every validation failure terminates the process and
none is silently ignored, but by two distinct paths: a non-readable
opcode word, a non-readable argument word (exit/exec/wait/write) and a
bad exec command-line pointer all go through `sys_exit(-1)`; a frame
stack pointer failing `check_addr` and a `write` buffer whose probe
faults go through a bare `thread_exit` that writes no PCB state and
raises no signal. -/
theorem C1_fault_paths (pexec : Nat → Int) (pwait : Int → Int) (mem : Mem)
    (f : Frame) :
    (check_addr f.esp = false →
      syscall_handler pexec pwait mem f =
        { outcome := .threadExit, console := [], diags := [] }) ∧
    (check_addr f.esp = true → check_buffer mem f.esp 4 = false →
      syscall_handler pexec pwait mem f = sys_exit_result (-1)) ∧
    (check_addr f.esp = true → check_buffer mem f.esp 4 = true →
      toSigned (rawWord mem f.esp) = SYS_EXIT →
      read_user_word mem (f.esp + 4) = none →
      syscall_handler pexec pwait mem f = sys_exit_result (-1)) ∧
    (check_addr f.esp = true → check_buffer mem f.esp 4 = true →
      toSigned (rawWord mem f.esp) = SYS_EXEC →
      read_user_word mem (f.esp + 4) = none →
      syscall_handler pexec pwait mem f = sys_exit_result (-1)) ∧
    (check_addr f.esp = true → check_buffer mem f.esp 4 = true →
      toSigned (rawWord mem f.esp) = SYS_EXEC →
      ∀ w, read_user_word mem (f.esp + 4) = some w → get_user mem w = -1 →
      syscall_handler pexec pwait mem f = sys_exit_result (-1)) ∧
    (check_addr f.esp = true → check_buffer mem f.esp 4 = true →
      toSigned (rawWord mem f.esp) = SYS_WAIT →
      read_user_word mem (f.esp + 4) = none →
      syscall_handler pexec pwait mem f = sys_exit_result (-1)) ∧
    (check_addr f.esp = true → check_buffer mem f.esp 4 = true →
      toSigned (rawWord mem f.esp) = SYS_WRITE →
      read_user_word mem (f.esp + 4) = none →
      syscall_handler pexec pwait mem f = sys_exit_result (-1)) ∧
    (check_addr f.esp = true → check_buffer mem f.esp 4 = true →
      toSigned (rawWord mem f.esp) = SYS_WRITE →
      ∀ fdw, read_user_word mem (f.esp + 4) = some fdw →
      read_user_word mem (f.esp + 8) = none →
      syscall_handler pexec pwait mem f = sys_exit_result (-1)) ∧
    (check_addr f.esp = true → check_buffer mem f.esp 4 = true →
      toSigned (rawWord mem f.esp) = SYS_WRITE →
      ∀ fdw bufw, read_user_word mem (f.esp + 4) = some fdw →
      read_user_word mem (f.esp + 8) = some bufw →
      read_user_word mem (f.esp + 12) = none →
      syscall_handler pexec pwait mem f = sys_exit_result (-1)) ∧
    (check_addr f.esp = true → check_buffer mem f.esp 4 = true →
      toSigned (rawWord mem f.esp) = SYS_WRITE →
      ∀ fdw bufw sizew, read_user_word mem (f.esp + 4) = some fdw →
      read_user_word mem (f.esp + 8) = some bufw →
      read_user_word mem (f.esp + 12) = some sizew →
      get_user mem bufw = -1 →
      syscall_handler pexec pwait mem f =
        { outcome := .threadExit, console := [], diags := [] }) := by
  refine ⟨?_, ?_, ?_, ?_, ?_, ?_, ?_, ?_, ?_, ?_⟩
  · intro h1
    simp [syscall_handler, h1]
  · intro h1 h2
    simp [syscall_handler, h1, h2]
  · intro h1 h2 hn h4
    simp [syscall_handler, h1, h2, hn, h4, SYS_HALT, SYS_EXIT]
  · intro h1 h2 hn h4
    simp [syscall_handler, h1, h2, hn, h4, SYS_HALT, SYS_EXIT, SYS_EXEC]
  · intro h1 h2 hn w hw hg
    simp [syscall_handler, h1, h2, hn, hw, hg, SYS_HALT, SYS_EXIT, SYS_EXEC]
  · intro h1 h2 hn h4
    simp [syscall_handler, h1, h2, hn, h4, SYS_HALT, SYS_EXIT, SYS_EXEC, SYS_WAIT]
  · intro h1 h2 hn h4
    simp [syscall_handler, h1, h2, hn, h4, SYS_HALT, SYS_EXIT, SYS_EXEC, SYS_WAIT,
      SYS_WRITE]
  · intro h1 h2 hn fdw h4 h8
    simp [syscall_handler, h1, h2, hn, h4, h8, SYS_HALT, SYS_EXIT, SYS_EXEC,
      SYS_WAIT, SYS_WRITE]
  · intro h1 h2 hn fdw bufw h4 h8 h12
    simp [syscall_handler, h1, h2, hn, h4, h8, h12, SYS_HALT, SYS_EXIT, SYS_EXEC,
      SYS_WAIT, SYS_WRITE]
  · intro h1 h2 hn fdw bufw sizew h4 h8 h12 hg
    simp [syscall_handler, h1, h2, hn, h4, h8, h12, SYS_HALT, SYS_EXIT, SYS_EXEC,
      SYS_WAIT, SYS_WRITE, sys_write, hg]

/-- C1 witness: the stack-pointer conjunct of `C1_fault_paths` applied at
`esp = PHYS_BASE + 8` over the unmapped memory. -/
theorem C1_fault_paths_witness :
    syscall_handler pexec0 pwait0 memNone ⟨PHYS_BASE + 8, 0⟩ =
      { outcome := .threadExit, console := [], diags := [] } :=
  (C1_fault_paths pexec0 pwait0 memNone ⟨PHYS_BASE + 8, 0⟩).1 (by decide)

/-- C2 counterexample: a two-byte buffer whose first byte is the last
user address and whose second byte is the kernel boundary address is NOT
rejected as a whole: `sys_write` forwards both bytes to the console. -/
theorem C2_counterexample :
    PHYS_BASE - 1 < PHYS_BASE ∧ ¬ PHYS_BASE < PHYS_BASE ∧
    sys_write memC2 1 (PHYS_BASE - 1) 2 =
      WriteResult.ok 2 [(104 : Byte), (88 : Byte)] := by decide

/-- C2 (amended): `sys_write` validates only the FIRST byte of the buffer
with `get_user`; if that probe faults the process is terminated before
any forwarding, and otherwise a `write` to descriptor 1 forwards all
`size` bytes via `putbuf` regardless of the validity of the bytes after
the first. -/
theorem C2_first_byte_only (mem : Mem) (fd : Int) (buffer size : Nat) :
    (get_user mem buffer = -1 →
      sys_write mem fd buffer size = .terminated) ∧
    (get_user mem buffer ≠ -1 →
      sys_write mem 1 buffer size = .ok size (putbuf_bytes mem buffer size)) := by
  constructor
  · intro h
    simp [sys_write, h]
  · intro h
    simp [sys_write, h]

/-- C2 witness: `C2_first_byte_only` applied to the straddling buffer of
`C2_counterexample`. -/
theorem C2_first_byte_only_witness :
    sys_write memC2 1 (PHYS_BASE - 1) 2 =
      .ok 2 (putbuf_bytes memC2 (PHYS_BASE - 1) 2) :=
  (C2_first_byte_only memC2 1 (PHYS_BASE - 1) 2).2 (by decide)

/-- C5: `write` to a non-console descriptor (here `write(99, 2000, 1)`,
first buffer byte valid): no bytes are forwarded and the unimplemented
diagnostic is printed, as the claim says — but the process is terminated
by a bare `thread_exit` (the call marked `// TODO` in the source), not
through the Coordinator's `sys_exit(-1)` path, so no exit code is
recorded and no signal is raised. -/
theorem C5_write_nonconsole_thread_exit :
    syscall_handler pexec0 pwait0 memC5 ⟨1000, 0⟩ =
      { outcome := .threadExit, console := [], diags := [.writeUnimplemented] } ∧
    Outcome.threadExit ≠ Outcome.exited (-1) := by decide

/-- C6 counterexample: the claim orders the transition action as
`exit_code` first, then `exited`; the code performs `exited` first. At
`S = 7` the performed trace differs from the claimed one. -/
theorem C6_counterexample :
    sys_exit_trace 7 ≠
      [ExitEvent.setExitcode 7, ExitEvent.setExited true, ExitEvent.semaUp] := by
  decide

/-- C6 (amended): `sys_exit(S)` performs, in order: set `exited = true`,
write `exit_code = S`, raise the one-shot signal — the two PCB writes in
the reverse of the claimed order, both strictly preceding the signal —
and afterwards the PCB satisfies `exited = true`, `exit_code = S`, with
the semaphore raised exactly once. -/
theorem C6_exit_transition (S : Int) (pcb : PCB) :
    sys_exit_trace S =
      [ExitEvent.setExited true, ExitEvent.setExitcode S, ExitEvent.semaUp] ∧
    (sys_exit S pcb).exited = true ∧ (sys_exit S pcb).exitcode = S ∧
    (sys_exit S pcb).semaValue = pcb.semaValue + 1 := by
  refine ⟨rfl, ?_, ?_, ?_⟩ <;> simp [sys_exit, sys_exit_trace, applyExitEvent]

/-- C4: any opcode outside {HALT, EXIT, EXEC, WAIT, WRITE} — the
recognized-but-unimplemented ones and any value outside the
enumeration — makes the dispatcher print the unimplemented-syscall
diagnostic and terminate through `sys_exit(-1)`, so the PCB records
exit code -1 and the one-shot signal is raised (waking a waiting
parent). -/
theorem C4_unknown_opcode_exits (pexec : Nat → Int) (pwait : Int → Int)
    (mem : Mem) (f : Frame) (pcb : PCB)
    (h1 : check_addr f.esp = true) (h2 : check_buffer mem f.esp 4 = true)
    (hh : toSigned (rawWord mem f.esp) ≠ SYS_HALT)
    (hx : toSigned (rawWord mem f.esp) ≠ SYS_EXIT)
    (he : toSigned (rawWord mem f.esp) ≠ SYS_EXEC)
    (hw : toSigned (rawWord mem f.esp) ≠ SYS_WAIT)
    (hr : toSigned (rawWord mem f.esp) ≠ SYS_WRITE) :
    syscall_handler pexec pwait mem f =
      { outcome := .exited (-1), console := [],
        diags := [.unimplementedSyscall (toSigned (rawWord mem f.esp)),
                  .exitMsg (-1)] } ∧
    (sys_exit (-1) pcb).exited = true ∧ (sys_exit (-1) pcb).exitcode = -1 ∧
    (sys_exit (-1) pcb).semaValue = pcb.semaValue + 1 := by
  refine ⟨?_, ?_, ?_, ?_⟩
  · simp [syscall_handler, h1, h2, hh, hx, he, hw, hr]
  all_goals simp [sys_exit, sys_exit_trace, applyExitEvent]

/-- C4 witness: `C4_unknown_opcode_exits` applied to a trap with opcode 7
(`SYS_FILESIZE`, recognized but unimplemented). -/
theorem C4_unknown_opcode_exits_witness :
    syscall_handler pexec0 pwait0 memC4 ⟨1000, 0⟩ =
      { outcome := .exited (-1), console := [],
        diags := [.unimplementedSyscall (toSigned (rawWord memC4 1000)),
                  .exitMsg (-1)] } :=
  (C4_unknown_opcode_exits pexec0 pwait0 memC4 ⟨1000, 0⟩ pcb0 (by decide)
    (by decide) (by decide) (by decide) (by decide) (by decide) (by decide)).1

/-- C7: `get_user` on an address at or above `PHYS_BASE`, or on an
unmapped address, returns the fault value -1 without any unguarded read;
on a mapped user address it returns that address's byte, zero-extended,
hence in [0, 255] and distinct from -1. -/
theorem C7_get_user_probe (mem : Mem) (a : Nat) :
    (¬ a < PHYS_BASE → get_user mem a = -1) ∧
    (mem a = none → get_user mem a = -1) ∧
    ∀ b : Byte, a < PHYS_BASE → mem a = some b →
      get_user mem a = (b : Nat) ∧ 0 ≤ get_user mem a ∧
      get_user mem a < 256 ∧ get_user mem a ≠ -1 := by
  refine ⟨fun h => by simp [get_user, h], fun h => ?_, fun b h hb => ?_⟩
  · by_cases h2 : a < PHYS_BASE
    · simp [get_user, h2, h]
    · simp [get_user, h2]
  · have hlt := b.isLt
    have hg : get_user mem a = ((b : Nat) : Int) := by
      simp [get_user, h, hb]
    rw [hg]
    refine ⟨rfl, ?_, ?_, ?_⟩ <;> omega

/-- C7 witness: `C7_get_user_probe` applied to the mapped byte 65 at
user address 5. -/
theorem C7_get_user_probe_witness :
    get_user memC7 5 = ((65 : Byte) : Nat) ∧ 0 ≤ get_user memC7 5 ∧
    get_user memC7 5 < 256 ∧ get_user memC7 5 ≠ -1 :=
  (C7_get_user_probe memC7 5).2.2 65 (by decide) (by decide)

/-- C8: dispatching the HALT opcode yields only the whole-machine
shutdown outcome: no console bytes, no diagnostics (in particular no
exit message), and no PCB-writing exit path — the halt case is terminal
and independent. -/
theorem C8_halt_only_power_off (pexec : Nat → Int) (pwait : Int → Int)
    (mem : Mem) (f : Frame)
    (h1 : check_addr f.esp = true) (h2 : check_buffer mem f.esp 4 = true)
    (hh : toSigned (rawWord mem f.esp) = SYS_HALT) :
    syscall_handler pexec pwait mem f =
      { outcome := .powerOff, console := [], diags := [] } := by
  simp [syscall_handler, h1, h2, hh]

/-- C8 witness: `C8_halt_only_power_off` applied to a trap with
opcode 0. -/
theorem C8_halt_only_power_off_witness :
    syscall_handler pexec0 pwait0 memC8 ⟨1000, 0⟩ =
      { outcome := .powerOff, console := [], diags := [] } :=
  C8_halt_only_power_off pexec0 pwait0 memC8 ⟨1000, 0⟩ (by decide) (by decide)
    (by decide)

/-- C9: a `write(1, buffer, size)` trap whose argument words read back
`(1, buffer, size)` and whose buffer bytes are all mapped user addresses
succeeds: `f->eax` receives the byte count `size` and exactly the
`size` buffer bytes are forwarded unchanged to the console; moreover
descriptor 1 is the only descriptor for which `sys_write` ever forwards
console bytes. -/
theorem C9_write_console (pexec : Nat → Int) (pwait : Int → Int) (mem : Mem)
    (f : Frame) (buffer size : Nat) (bs : Nat → Byte)
    (h1 : check_addr f.esp = true) (h2 : check_buffer mem f.esp 4 = true)
    (hn : toSigned (rawWord mem f.esp) = SYS_WRITE)
    (ha1 : read_user_word mem (f.esp + 4) = some 1)
    (ha2 : read_user_word mem (f.esp + 8) = some buffer)
    (ha3 : read_user_word mem (f.esp + 12) = some size)
    (hpos : 0 < size)
    (hbuf : ∀ i, i < size → buffer + i < PHYS_BASE ∧
      mem (buffer + i) = some (bs i)) :
    syscall_handler pexec pwait mem f =
      { outcome := .resume size, console := (List.range size).map bs,
        diags := [] } ∧
    ∀ fd : Int, fd ≠ 1 → ∀ b s : Nat,
      writeConsole (sys_write mem fd b s) = [] := by
  have hb0 := hbuf 0 hpos
  rw [Nat.add_zero] at hb0
  have hg : get_user mem buffer = ((bs 0 : Nat) : Int) := by
    simp [get_user, hb0.1, hb0.2]
  have hgne : get_user mem buffer ≠ -1 := by
    rw [hg]; omega
  have hpb : putbuf_bytes mem buffer size = (List.range size).map bs := by
    unfold putbuf_bytes
    apply List.map_congr_left
    intro i hi
    rw [List.mem_range] at hi
    rw [(hbuf i hi).2]
    rfl
  have hsw : sys_write mem (toSigned 1) buffer size =
      .ok size ((List.range size).map bs) := by
    have h11 : toSigned 1 = 1 := by decide
    rw [h11]
    simp [sys_write, hgne, hpb]
  constructor
  · simp [syscall_handler, h1, h2, hn, ha1, ha2, ha3, hsw, SYS_HALT, SYS_EXIT,
      SYS_EXEC, SYS_WAIT, SYS_WRITE]
  · intro fd hfd b s
    by_cases hgb : get_user mem b = -1
    · simp [sys_write, writeConsole, hgb]
    · simp [sys_write, writeConsole, hgb, hfd]

/-- C9 witness: the main conjunct of `C9_write_console` applied to the
trap `write(1, 2000, 2)` over `memW9`, forwarding the bytes "hi". -/
theorem C9_write_console_witness :
    syscall_handler pexec0 pwait0 memW9 ⟨1000, 0⟩ =
      { outcome := .resume 2, console := (List.range 2).map bsW9,
        diags := [] } :=
  (C9_write_console pexec0 pwait0 memW9 ⟨1000, 0⟩ 2000 2 bsW9 (by decide)
    (by decide) (by decide) (by decide) (by decide) (by decide) (by decide)
    (by decide)).1

/-- The `memread_user` loop when every remaining byte reads successfully:
it succeeds and stores each byte at its offset, leaving the rest of the
destination unchanged. -/
theorem memread_go_ok (mem : Mem) (src : Nat) :
    ∀ (n i : Nat) (dst : Nat → Byte),
      (∀ j, j < n → 0 ≤ get_user mem (src + (i + j))) →
      (memread_go mem src i n dst).1 = true ∧
      ∀ k, (memread_go mem src i n dst).2 k =
        if i ≤ k ∧ k < i + n then byteOf (get_user mem (src + k)) else dst k := by
  intro n
  induction n with
  | zero =>
    intro i dst _
    refine ⟨rfl, fun k => ?_⟩
    have hk : ¬ (i ≤ k ∧ k < i) := by omega
    simp [memread_go, hk]
  | succ n ih =>
    intro i dst h
    have h0 : 0 ≤ get_user mem (src + i) := by
      simpa using h 0 (Nat.succ_pos n)
    have hlt : ¬ get_user mem (src + i) < 0 := not_lt.mpr h0
    have hstep : memread_go mem src i (n + 1) dst =
        memread_go mem src (i + 1) n
          (Function.update dst i (byteOf (get_user mem (src + i)))) := by
      simp [memread_go, hlt]
    have hrec := ih (i + 1)
      (Function.update dst i (byteOf (get_user mem (src + i))))
      (fun j hj => by
        have e : i + 1 + j = i + (j + 1) := by omega
        rw [e]
        exact h (j + 1) (by omega))
    rw [hstep]
    refine ⟨hrec.1, fun k => ?_⟩
    rw [hrec.2 k, Function.update_apply]
    by_cases hk1 : i + 1 ≤ k ∧ k < i + 1 + n
    · have hk2 : i ≤ k ∧ k < i + (n + 1) := by omega
      simp [hk1, hk2]
    · by_cases hki : k = i
      · subst hki
        have hk2 : k ≤ k ∧ k < k + (n + 1) := by omega
        simp [hk1, hk2]
      · have hk2 : ¬ (i ≤ k ∧ k < i + (n + 1)) := by omega
        simp [hk1, hk2, hki]

/-- The `memread_user` loop when the byte at relative offset `m` is the
first to fail: it reports failure with the earlier bytes already stored
and the rest of the destination unchanged. -/
theorem memread_go_fault (mem : Mem) (src : Nat) :
    ∀ (n i m : Nat) (dst : Nat → Byte), m < n →
      (∀ j, j < m → 0 ≤ get_user mem (src + (i + j))) →
      get_user mem (src + (i + m)) < 0 →
      (memread_go mem src i n dst).1 = false ∧
      ∀ k, (memread_go mem src i n dst).2 k =
        if i ≤ k ∧ k < i + m then byteOf (get_user mem (src + k)) else dst k := by
  intro n
  induction n with
  | zero =>
    intro i m dst hm _ _
    exact absurd hm (Nat.not_lt_zero m)
  | succ n ih =>
    intro i m dst hm hok hf
    cases m with
    | zero =>
      have hf0 : get_user mem (src + i) < 0 := by simpa using hf
      refine ⟨by simp [memread_go, hf0], fun k => ?_⟩
      have hk : ¬ (i ≤ k ∧ k < i) := by omega
      simp [memread_go, hf0, hk]
    | succ m =>
      have h0 : 0 ≤ get_user mem (src + i) := by
        simpa using hok 0 (Nat.succ_pos m)
      have hlt : ¬ get_user mem (src + i) < 0 := not_lt.mpr h0
      have hstep : memread_go mem src i (n + 1) dst =
          memread_go mem src (i + 1) n
            (Function.update dst i (byteOf (get_user mem (src + i)))) := by
        simp [memread_go, hlt]
      have hrec := ih (i + 1) m
        (Function.update dst i (byteOf (get_user mem (src + i))))
        (by omega)
        (fun j hj => by
          have e : i + 1 + j = i + (j + 1) := by omega
          rw [e]
          exact hok (j + 1) (by omega))
        (by
          have e : i + 1 + m = i + (m + 1) := by omega
          rw [e]
          exact hf)
      rw [hstep]
      refine ⟨hrec.1, fun k => ?_⟩
      rw [hrec.2 k, Function.update_apply]
      by_cases hk1 : i + 1 ≤ k ∧ k < i + 1 + m
      · have hk2 : i ≤ k ∧ k < i + (m + 1) := by omega
        simp [hk1, hk2]
      · by_cases hki : k = i
        · subst hki
          have hk2 : k ≤ k ∧ k < k + (m + 1) := by omega
          simp [hk1, hk2]
        · have hk2 : ¬ (i ≤ k ∧ k < i + (m + 1)) := by omega
          simp [hk1, hk2, hki]

/-- C10: when `memread_user(src, dst, bytes)` fails because the byte at
offset `i` is the first invalid one, it returns -1 with `dst[0..i)`
already overwritten by the user bytes read before the fault and
`dst[i..)` unmodified; when every byte is valid it returns exactly
`bytes` and fills `dst[0..bytes)`, so the no-partial-data guarantee
rests on the caller terminating the process, not on atomicity of the
copy. -/
theorem C10_memread_user_effects (mem : Mem) (src : Nat) (dst : Nat → Byte)
    (bytes : Nat) :
    ((∀ j, j < bytes → 0 ≤ get_user mem (src + j)) →
      (memread_user mem src dst bytes).1 = (bytes : Int) ∧
      ∀ k, (memread_user mem src dst bytes).2 k =
        if k < bytes then byteOf (get_user mem (src + k)) else dst k) ∧
    ∀ i, i < bytes → (∀ j, j < i → 0 ≤ get_user mem (src + j)) →
      get_user mem (src + i) < 0 →
      (memread_user mem src dst bytes).1 = -1 ∧
      ∀ k, (memread_user mem src dst bytes).2 k =
        if k < i then byteOf (get_user mem (src + k)) else dst k := by
  constructor
  · intro h
    have hok := memread_go_ok mem src bytes 0 dst
      (fun j hj => by simpa using h j hj)
    refine ⟨by simp [memread_user, hok.1], fun k => ?_⟩
    have he : (memread_user mem src dst bytes).2 =
        (memread_go mem src 0 bytes dst).2 := rfl
    rw [he, hok.2 k]
    by_cases hk : k < bytes
    · have hk2 : 0 ≤ k ∧ k < 0 + bytes := by omega
      simp [hk, hk2]
    · have hk2 : ¬ (0 ≤ k ∧ k < 0 + bytes) := by omega
      simp [hk, hk2]
  · intro i hi hok hf
    have hfail := memread_go_fault mem src bytes 0 i dst hi
      (fun j hj => by simpa using hok j hj)
      (by simpa using hf)
    refine ⟨by simp [memread_user, hfail.1], fun k => ?_⟩
    have he : (memread_user mem src dst bytes).2 =
        (memread_go mem src 0 bytes dst).2 := rfl
    rw [he, hfail.2 k]
    by_cases hk : k < i
    · have hk2 : 0 ≤ k ∧ k < 0 + i := by omega
      simp [hk, hk2]
    · have hk2 : ¬ (0 ≤ k ∧ k < 0 + i) := by omega
      simp [hk, hk2]

/-- C10 witness: the failure conjunct of `C10_memread_user_effects` on a
memory mapped at 2000 and unmapped at 2001: reading two bytes from 2000
fails with result -1. -/
theorem C10_memread_user_effects_witness :
    (memread_user memC10 2000 dst0 2).1 = -1 :=
  ((C10_memread_user_effects memC10 2000 dst0 2).2 1 (by decide) (by decide)
    (by decide)).1
